import Mathlib

/-!
Verification development for the multi-provider LLM invocation layer of the
repository (file app/services/llm.py).  Python strings are modelled as
List Char; the configuration source is a read-only map from keys to optional
string values; every backend interaction (HTTP request, SDK call, JSON body
of a response) is modelled by an oracle environment NetEnv whose fields give,
for the one call under consideration, either the payload the backend produced
or the message of the exception the transport raised.  A raised Python
exception is an Except.error carrying str(e); the outer handler of
_generate_response turns it into the tagged string "Error: " ++ msg.
-/

-- ---------------------------------------------------------------------------
-- Basic Python string utilities
-- ---------------------------------------------------------------------------

-- Python truthiness of an optional string (None and "" are falsy).
def truthy : Option (List Char) → Bool
  | none => false
  | some s => !s.isEmpty

-- s.replace("\n", "") : removes every newline character.
def stripNewlines (l : List Char) : List Char :=
  l.filter (fun c => c != '\n')

-- membership test for a single character, as a Bool
def hasChar (ch : Char) (l : List Char) : Bool :=
  l.any (fun c => c = ch)

-- Python str.strip(): drop whitespace from both ends.
def pyStrip (l : List Char) : List Char :=
  ((l.dropWhile Char.isWhitespace).reverse.dropWhile Char.isWhitespace).reverse

-- list-prefix test, as a Bool
def pfx : List Char → List Char → Bool
  | [], _ => true
  | _ :: _, [] => false
  | a :: as, b :: bs => a = b && pfx as bs

-- Python substring containment (`pat in s`), as a Bool
def strIn (pat : List Char) : List Char → Bool
  | [] => pfx pat []
  | x :: xs => pfx pat (x :: xs) || strIn pat xs

-- the failure tag produced by the outer exception handler of _generate_response
def errTag (m : List Char) : List Char :=
  "Error: ".data ++ m

-- `"Error: " in s` — the failure sentinel test used by the Orchestrator
def errTagged (s : List Char) : Bool :=
  strIn "Error: ".data s

-- index of the last occurrence of a character in a list, if any
def lastIdxOf (c : Char) : List Char → Option Nat
  | [] => none
  | x :: xs =>
    match lastIdxOf c xs with
    | some k => some (k + 1)
    | none => if x = c then some 0 else none

-- ---------------------------------------------------------------------------
-- Regex operations used by the Orchestrator.
-- re.sub(r"OPEN.*CLOSE", "", s): the dot does not match a newline, matching is
-- greedy and leftmost, and all non-overlapping matches are removed.  At an
-- opening character a match exists iff the closing character occurs in the
-- maximal newline-free segment that follows; the greedy match then extends to
-- the last such closing character.  The fuel argument (always at least the
-- length of the list) makes the recursion structural.
-- ---------------------------------------------------------------------------

def reSubSpanGo (o c : Char) : Nat → List Char → List Char
  | _, [] => []
  | 0, l => l
  | fuel + 1, x :: xs =>
    if x = o then
      match lastIdxOf c (xs.takeWhile (fun ch => ch != '\n')) with
      | some k => reSubSpanGo o c fuel (xs.drop (k + 1))
      | none => x :: reSubSpanGo o c fuel xs
    else x :: reSubSpanGo o c fuel xs

def reSubSpan (o c : Char) (l : List Char) : List Char :=
  reSubSpanGo o c l.length l

-- re.search(r"OPEN.*CLOSE", s).group(): the leftmost greedy match, if any.
def reSearchSpanGo (o c : Char) : Nat → List Char → Option (List Char)
  | _, [] => none
  | 0, _ => none
  | fuel + 1, x :: xs =>
    if x = o then
      match lastIdxOf c (xs.takeWhile (fun ch => ch != '\n')) with
      | some k => some (x :: (xs.takeWhile (fun ch => ch != '\n')).take (k + 1))
      | none => reSearchSpanGo o c fuel xs
    else reSearchSpanGo o c fuel xs

def reSearchSpan (o c : Char) (l : List Char) : Option (List Char) :=
  reSearchSpanGo o c l.length l

-- s.split("\n\n") — Python split on the two-character separator
def splitNN : List Char → List (List Char)
  | [] => [[]]
  | [x] => [[x]]
  | x :: y :: rest =>
    if x = '\n' ∧ y = '\n' then [] :: splitNN rest
    else
      match splitNN (y :: rest) with
      | [] => [[x]]
      | h :: t => (x :: h) :: t

-- "\n\n".join(ps)
def joinNN : List (List Char) → List Char
  | [] => []
  | [p] => p
  | p :: ps => p ++ '\n' :: '\n' :: joinNN ps

-- a complete bracketed span: an occurrence of o followed (anywhere later) by c
def hasSpan (o c : Char) : List Char → Bool
  | [] => false
  | x :: xs => (x = o && hasChar c xs) || hasSpan o c xs

-- ---------------------------------------------------------------------------
-- The Provider Dispatcher (_generate_response in app/services/llm.py).
-- ---------------------------------------------------------------------------

-- the value _generate_response hands back to Python callers: a string, or the
-- Python None value (reachable on the ernie path via dict.get)
inductive LLMRet
  | str (s : List Char)
  | pynone

-- read-only configuration source: config.app.get
def Cfg : Type := String → Option (List Char)

def cget (cfg : Cfg) (k : String) : Option (List Char) := cfg k

def cgetD (cfg : Cfg) (k : String) (d : List Char) : List Char :=
  (cfg k).getD d

def providerOf (cfg : Cfg) : List Char :=
  cgetD cfg "llm_provider" "openai".data

-- outcome of the pollinations raw-HTTP call (requests.post / raise_for_status /
-- response.json()).  reqExn: a requests.exceptions.RequestException; otherExn:
-- any other exception inside the inner try block; ok: a decoded JSON body,
-- carrying result.choices[0].message.content when the shape is the expected one.
inductive PollOutcome
  | reqExn (m : List Char)
  | otherExn (m : List Char)
  | ok (choicesContent : Option (List Char))

-- outcome of dashscope.Generation.call for qwen: a falsy response, a response
-- that is not a GenerationResponse (carrying its repr), or a GenerationResponse
-- with a status code, an output text and a repr used in error messages.
inductive QwenResp
  | pyNone
  | notGen (reprS : List Char)
  | gen (status : Nat) (text : List Char) (reprS : List Char)

-- the shape of candidates[0].content probed by the gemini adapter, in the fixed
-- priority order of the source: content.parts[0].text, content as a list of
-- strings, content.text, or an unrecognized shape.
inductive GemCand
  | partsText (t : List Char)
  | contentList (t : List Char)
  | contentText (t : List Char)
  | unknownShape

-- a gemini generate_content response.  textAttr / outputText model the
-- fallback attributes response.text and response.output_text; a field is some t
-- exactly when the attribute is present, with t its value.
structure GemResp where
  cand : Option GemCand
  textAttr : Option (List Char)
  outputText : Option (List Char)

-- the modelscope streaming response: falsy, or a stream of chunks, each chunk
-- contributing delta.content when it has choices and a truthy delta content.
inductive MsResp
  | pyNone
  | stream (chunks : List (Option (List Char)))

-- a chat-completions response for the SDK-style adapters: falsy, not a
-- ChatCompletion instance (carrying its repr), or a completion whose choices
-- list holds each message content (None is a possible message content).
inductive ChatResp
  | pyNone
  | notCompletion (reprS : List Char)
  | completion (choices : List (Option (List Char)))

-- the behavior of every backend interaction for one dispatcher call (the
-- prompt is fixed for the call, so each field is a plain outcome).  An
-- Except.error m models the interaction raising an exception with str(e) = m.
structure NetEnv where
  g4f : Except (List Char) (List Char)
  poll : PollOutcome
  qwen : Except (List Char) QwenResp
  gemConfigure : Except (List Char) Unit
  gemCreate : Except (List Char) Unit
  gemGen : Except (List Char) GemResp
  cloudflare : Except (List Char) (List Char)
  ernieToken : Except (List Char) (Option (List Char))
  ernieMain : Except (List Char) (Option (List Char))
  azureCtor : Except (List Char) Unit
  openaiCtor : Except (List Char) Unit
  msCreate : Except (List Char) MsResp
  chatCreate : Except (List Char) ChatResp

-- the per-provider credential triple resolved by the if/elif chain
-- (lines 32-91); secret_key is read only on the ernie path.
structure Creds where
  api_key : Option (List Char)
  model_name : Option (List Char)
  base_url : List Char
  secret_key : Option (List Char)

def sqc : Char := '\''

def credsMk (a m : Option (List Char)) (b : List Char) : Creds :=
  ⟨a, m, b, none⟩

-- the provider identifiers the source compares against.  Every string equals
-- at most one literal, so classifying the provider string once is exactly the
-- first-match semantics of the if/elif chains of the source.
inductive ProvKind
  | g4f | pollinations | moonshot | ollama | openai | oneapi | azure | gemini
  | qwen | cloudflare | deepseek | modelscope | ernie | unknown
deriving DecidableEq

def provKind (p : List Char) : ProvKind :=
  if p = "g4f".data then .g4f
  else if p = "pollinations".data then .pollinations
  else if p = "moonshot".data then .moonshot
  else if p = "ollama".data then .ollama
  else if p = "openai".data then .openai
  else if p = "oneapi".data then .oneapi
  else if p = "azure".data then .azure
  else if p = "gemini".data then .gemini
  else if p = "qwen".data then .qwen
  else if p = "cloudflare".data then .cloudflare
  else if p = "deepseek".data then .deepseek
  else if p = "modelscope".data then .modelscope
  else if p = "ernie".data then .ernie
  else .unknown

-- the if/elif chain resolving provider configuration (lines 32-91).
-- Except.error is the ValueError raised for a missing ernie secret_key;
-- Option.none means the provider matched no branch, leaving
-- api_key/model_name/base_url unbound.
def resolveCreds (cfg : Cfg) (p : List Char) : Except (List Char) (Option Creds) :=
  match provKind p with
  | .moonshot =>
    .ok (some (credsMk (cget cfg "moonshot_api_key") (cget cfg "moonshot_model_name")
      "https://api.moonshot.cn/v1".data))
  | .ollama =>
    .ok (some (credsMk (some "ollama".data) (cget cfg "ollama_model_name")
      (let b := cgetD cfg "ollama_base_url" []
       if b.isEmpty then "http://localhost:11434/v1".data else b)))
  | .openai =>
    .ok (some (credsMk (cget cfg "openai_api_key") (cget cfg "openai_model_name")
      (let b := cgetD cfg "openai_base_url" []
       if b.isEmpty then "https://api.openai.com/v1".data else b)))
  | .oneapi =>
    .ok (some (credsMk (cget cfg "oneapi_api_key") (cget cfg "oneapi_model_name")
      (cgetD cfg "oneapi_base_url" [])))
  | .azure =>
    .ok (some (credsMk (cget cfg "azure_api_key") (cget cfg "azure_model_name")
      (cgetD cfg "azure_base_url" [])))
  | .gemini =>
    .ok (some (credsMk (cget cfg "gemini_api_key") (cget cfg "gemini_model_name")
      (cgetD cfg "gemini_base_url" [])))
  | .qwen =>
    .ok (some (credsMk (cget cfg "qwen_api_key") (cget cfg "qwen_model_name") "***".data))
  | .cloudflare =>
    .ok (some (credsMk (cget cfg "cloudflare_api_key") (cget cfg "cloudflare_model_name")
      "***".data))
  | .deepseek =>
    .ok (some (credsMk (cget cfg "deepseek_api_key") (cget cfg "deepseek_model_name")
      (let b := (cget cfg "deepseek_base_url").getD []
       if b.isEmpty then "https://api.deepseek.com".data else b)))
  | .modelscope =>
    .ok (some (credsMk (cget cfg "modelscope_api_key") (cget cfg "modelscope_model_name")
      (let b := (cget cfg "modelscope_base_url").getD []
       if b.isEmpty then "https://api-inference.modelscope.cn/v1/".data else b)))
  | .ernie =>
    if !truthy (cget cfg "ernie_secret_key") then
      .error (p ++ ": secret_key is not set, please set it in the config.toml file.".data)
    else
      .ok (some ⟨cget cfg "ernie_api_key", some "***".data,
        (cget cfg "ernie_base_url").getD [], cget cfg "ernie_secret_key"⟩)
  | _ => .ok none

-- the credential validation block (lines 134-146), applied to providers that
-- are not exempted.
def validateCreds (p : List Char) (cr : Creds) : Except (List Char) Unit :=
  if !truthy cr.api_key then
    .error (p ++ ": api_key is not set, please set it in the config.toml file.".data)
  else if !truthy cr.model_name then
    .error (p ++ ": model_name is not set, please set it in the config.toml file.".data)
  else if cr.base_url.isEmpty then
    .error (p ++ ": base_url is not set, please set it in the config.toml file.".data)
  else
    .ok ()

-- the pollinations raw-HTTP branch (lines 92-132): both inner except clauses
-- re-raise a wrapped message which the outer handler then tags.
def pollBranch (env : NetEnv) : Except (List Char) LLMRet :=
  match env.poll with
  | .reqExn m => .error ("[pollinations] request failed: ".data ++ m)
  | .otherExn m => .error ("[pollinations] error: ".data ++ m)
  | .ok c =>
    match c with
    | some content => .ok (.str (stripNewlines content))
    | none => .error "[pollinations] error: [pollinations] returned an invalid response format".data

-- the qwen dashscope branch (lines 148-171)
def qwenBranch (env : NetEnv) : Except (List Char) LLMRet :=
  match env.qwen with
  | .error e => .error e
  | .ok .pyNone => .error "[qwen] returned an empty response".data
  | .ok (.notGen r) =>
    .error ("[qwen] returned an invalid response: \"".data ++ r ++ "\"".data)
  | .ok (.gen st t r) =>
    if st ≠ 200 then
      .error ("[qwen] returned an error response: \"".data ++ r ++ "\"".data)
    else
      .ok (.str (stripNewlines t))

-- the gemini branch (lines 173-306): every internal failure is logged and the
-- empty string is RETURNED (not raised), so no gemini failure reaches the
-- outer exception handler.
def geminiBranch (cr : Creds) (env : NetEnv) : Except (List Char) LLMRet :=
  if !truthy cr.api_key then .ok (.str [])
  else if !truthy cr.model_name then .ok (.str [])
  else
    match env.gemConfigure with
    | .error _ => .ok (.str [])
    | .ok _ =>
      match env.gemCreate with
      | .error _ => .ok (.str [])
      | .ok _ =>
        match env.gemGen with
        | .error _ => .ok (.str [])
        | .ok resp =>
          let fromCand : List Char :=
            match resp.cand with
            | some (.partsText t) => t
            | some (.contentList t) => t
            | some (.contentText t) => t
            | some .unknownShape => []
            | none => []
          let g : List Char :=
            if !fromCand.isEmpty then fromCand
            else if truthy resp.textAttr then resp.textAttr.getD []
            else if truthy resp.outputText then resp.outputText.getD []
            else []
          if g.isEmpty then .ok (.str [])
          else .ok (.str (stripNewlines g))

-- the modelscope streaming branch (lines 364-389): deltas are concatenated;
-- an all-whitespace concatenation raises ValueError.
def msBranch (env : NetEnv) : Except (List Char) LLMRet :=
  match env.msCreate with
  | .error e => .error e
  | .ok .pyNone => .error "[modelscope] returned an empty response".data
  | .ok (.stream chunks) =>
    let content := (chunks.filterMap id).flatten
    if (pyStrip content).isEmpty then .error "Empty content in stream response".data
    else .ok (.str (stripNewlines content))

-- the shared chat-completions call (lines 397-413) for the SDK-style adapters.
-- An empty choices list raises IndexError at choices[0]; a None message
-- content raises AttributeError at content.replace on line 413.
def chatBranch (p : List Char) (env : NetEnv) : Except (List Char) LLMRet :=
  match env.chatCreate with
  | .error e => .error e
  | .ok .pyNone =>
    .error ("[".data ++ p ++
      "] returned an empty response, please check your network connection and try again.".data)
  | .ok (.notCompletion r) =>
    .error ("[".data ++ p ++ "] returned an invalid response: \"".data ++ r ++
      "\", please check your network connection and try again.".data)
  | .ok (.completion choices) =>
    match choices with
    | [] => .error "list index out of range".data
    | c :: _ =>
      match c with
      | none =>
        .error ([sqc] ++ "NoneType".data ++ [sqc] ++ " object has no attribute ".data ++
          [sqc] ++ "replace".data ++ [sqc])
      | some content => .ok (.str (stripNewlines content))

-- dispatch for the providers that pass through the validation block
-- (lines 148-413).  For azure an AzureOpenAI client is constructed first and
-- then overwritten by the plain OpenAI client of the final else branch, so
-- both constructors run and the shared chat call is used.
def dispatchKnown (p : List Char) (cr : Creds) (env : NetEnv) : Except (List Char) LLMRet :=
  match provKind p with
  | .qwen => qwenBranch env
  | .gemini => geminiBranch cr env
  | .cloudflare =>
    match env.cloudflare with
    | .error e => .error e
    | .ok s => .ok (.str s)
  | .ernie =>
    match env.ernieToken with
    | .error e => .error e
    | .ok _ =>
      match env.ernieMain with
      | .error e => .error e
      | .ok r =>
        match r with
        | some s => .ok (.str s)
        | none => .ok .pynone
  | k =>
    match (if k = .azure then env.azureCtor else .ok ()) with
    | .error e => .error e
    | .ok _ =>
      if k = .modelscope then msBranch env
      else
        match env.openaiCtor with
        | .error e => .error e
        | .ok _ => chatBranch p env

-- the body of _generate_response (lines 18-413); an Except.error is an
-- exception reaching the outer handler.  An unknown provider reaches the
-- validation block with api_key unbound, raising NameError.
def generateResponseBody (cfg : Cfg) (env : NetEnv) : Except (List Char) LLMRet :=
  let p := providerOf cfg
  match provKind p with
  | .g4f =>
    match env.g4f with
    | .error e => .error e
    | .ok content => .ok (.str (stripNewlines content))
  | .pollinations => pollBranch env
  | k =>
    match resolveCreds cfg p with
    | .error e => .error e
    | .ok credsOpt =>
      match credsOpt with
      | none => .error ("name ".data ++ [sqc] ++ "api_key".data ++ [sqc] ++ " is not defined".data)
      | some cr =>
        match (if k ≠ .pollinations ∧ k ≠ .ollama
               then validateCreds p cr else .ok ()) with
        | .error e => .error e
        | .ok _ => dispatchKnown p cr env

-- _generate_response (lines 17-415): the outer try/except converts any
-- exception that reaches it into the string "Error: " ++ str(e).
def generate_response (cfg : Cfg) (env : NetEnv) : LLMRet :=
  match generateResponseBody cfg env with
  | .ok v => v
  | .error e => .str (errTag e)

-- ---------------------------------------------------------------------------
-- The Retry-Validate Orchestrator: generate_script (lines 418-489).
-- A dispatcher stub d gives the value _generate_response produced on each
-- attempt (the prompt is fixed; attempt outcomes may differ).  The returned
-- pair instruments the translation with the number of attempts performed.
-- ---------------------------------------------------------------------------

-- the provider-quota-exhaustion marker checked by generate_script (line 475)
def quotaMarker : List Char := "当日额度已消耗完".data

-- format_response (lines 447-464): strip asterisks and hashes, remove the
-- greedy bracketed and parenthetical spans, split on blank lines and rejoin.
def format_response (response : List Char) : List Char :=
  let r1 := response.filter (fun c => c != '*')
  let r2 := r1.filter (fun c => c != '#')
  let r3 := reSubSpan '[' ']' r2
  let r4 := reSubSpan '(' ')' r3
  joinNN (splitNN r4)

-- the retry loop of generate_script.  rem is the number of remaining
-- iterations (5 at the start), i the number of attempts already made, fs the
-- current final_script.  A truthy response is formatted; a quota marker in a
-- truthy final_script raises ValueError, which the except clause absorbs, so
-- the loop continues with final_script retained; otherwise a truthy
-- final_script breaks the loop.
def scriptGo (d : Nat → LLMRet) : Nat → Nat → List Char → List Char × Nat
  | 0, i, fs => (fs, i)
  | rem + 1, i, fs =>
    let fs' :=
      match d i with
      | .str s => if s.isEmpty then fs else format_response s
      | .pynone => fs
    if !fs'.isEmpty && strIn quotaMarker fs' then scriptGo d rem (i + 1) fs'
    else if !fs'.isEmpty then (fs', i + 1)
    else scriptGo d rem (i + 1) fs'

-- generate_script: runs the loop and returns final_script.strip() together
-- with the number of dispatcher invocations performed.
def generate_script (d : Nat → LLMRet) : List Char × Nat :=
  let r := scriptGo d 5 0 []
  (pyStrip r.1, r.2)

-- ---------------------------------------------------------------------------
-- The Retry-Validate Orchestrator: generate_terms (lines 492-553).
-- json.loads of the Python standard library is modelled by a parse oracle
-- loads : List Char → Except (List Char) PyJson (an Except.error is the
-- json.JSONDecodeError the call raises).
-- ---------------------------------------------------------------------------

-- a decoded Python JSON value
inductive PyJson
  | str (s : List Char)
  | num (n : Int)
  | boolv (b : Bool)
  | nullv
  | arr (xs : List PyJson)
  | obj (kvs : List (List Char × PyJson))

-- instrumentation: how the current search_terms value was last produced.
-- init: the initial empty list; strictValid: a strict parse that passed the
-- list-of-strings validation; strictInvalid: a strict parse retained after the
-- validation failed (the loop continues with it); salvaged: a re-parse of the
-- regex-extracted bracket span (never validated by the source).
inductive Src
  | init
  | strictValid
  | strictInvalid
  | salvaged

-- the value generate_terms hands back to Python callers: the search_terms
-- value together with its provenance tag, the raw dispatcher string on the
-- sentinel path, or an uncaught TypeError escaping the function (len applied
-- to an unsized retained value).
inductive TermsRet
  | val (j : PyJson) (src : Src)
  | raw (s : List Char)
  | pyExn

-- isinstance(search_terms, list) and all(isinstance(term, str) ...)
def isStrList : PyJson → Bool
  | .arr xs => xs.all (fun j => match j with | .str _ => true | _ => false)
  | _ => false

-- Python truthiness of a decoded JSON value
def pyTruthy : PyJson → Bool
  | .str s => !s.isEmpty
  | .num n => n ≠ 0
  | .boolv b => b
  | .nullv => false
  | .arr xs => !xs.isEmpty
  | .obj kvs => !kvs.isEmpty

-- len(v), when v is a sized value; none models the TypeError len raises
def pyLen : PyJson → Option Nat
  | .str s => some s.length
  | .arr xs => some xs.length
  | .obj kvs => some kvs.length
  | _ => none

-- outcome of one loop iteration of generate_terms
inductive StepOut
  | retRaw (s : List Char)
  | brk (j : PyJson) (src : Src)
  | next (j : PyJson) (src : Src)
  | tyErr

-- the trailing break test `if search_terms and len(search_terms) > 0`;
-- len raises TypeError on an unsized truthy value.
def afterParse (j : PyJson) (src : Src) : StepOut :=
  if pyTruthy j then
    match pyLen j with
    | some n => if 0 < n then .brk j src else .next j src
    | none => .tyErr
  else .next j src

-- one iteration of the generate_terms loop (lines 524-550).  On a None
-- response the membership test raises TypeError, the except clause catches it
-- and the falsy response skips salvage.  A sentinel response returns
-- immediately.  A strict parse failing validation hits `continue`, retaining
-- the parsed value and skipping the break test for this iteration.  On a
-- parse error, salvage re-parses the first bracket span of a truthy response.
def termStep (loads : List Char → Except (List Char) PyJson)
    (resp : LLMRet) (j : PyJson) (src : Src) : StepOut :=
  match resp with
  | .pynone => afterParse j src
  | .str s =>
    if errTagged s then .retRaw s
    else
      match loads s with
      | .ok v => if isStrList v then afterParse v .strictValid else .next v .strictInvalid
      | .error _ =>
        if s.isEmpty then afterParse j src
        else
          match reSearchSpan '[' ']' s with
          | some span =>
            match loads span with
            | .ok v => afterParse v .salvaged
            | .error _ => afterParse j src
          | none => afterParse j src

-- the retry loop of generate_terms; rem counts down from 5, i counts the
-- attempts performed.
def termsGo (loads : List Char → Except (List Char) PyJson) (d : Nat → LLMRet) :
    Nat → Nat → PyJson → Src → TermsRet × Nat
  | 0, i, j, src => (.val j src, i)
  | rem + 1, i, j, src =>
    match termStep loads (d i) j src with
    | .retRaw s => (.raw s, i + 1)
    | .brk v vsrc => (.val v vsrc, i + 1)
    | .tyErr => (.pyExn, i + 1)
    | .next v vsrc => termsGo loads d rem (i + 1) v vsrc

-- generate_terms: search_terms starts as the empty list.
def generate_terms (loads : List Char → Except (List Char) PyJson)
    (d : Nat → LLMRet) : TermsRet × Nat :=
  termsGo loads d 5 0 (.arr []) .init

-- ---------------------------------------------------------------------------
-- Concrete configurations, environments and stubs used by the claim theorems.
-- ---------------------------------------------------------------------------

def mkCfg (ps : List (String × String)) : Cfg :=
  fun k => (ps.find? (fun kv => kv.1 = k)).map (fun kv => kv.2.data)

-- a benign environment in which every backend interaction succeeds
def envDefault : NetEnv where
  g4f := .ok "ok".data
  poll := .ok (some "ok".data)
  qwen := .ok (.gen 200 "ok".data "resp".data)
  gemConfigure := .ok ()
  gemCreate := .ok ()
  gemGen := .ok ⟨some (.partsText "ok".data), none, none⟩
  cloudflare := .ok "ok".data
  ernieToken := .ok (some "tok".data)
  ernieMain := .ok (some "ok".data)
  azureCtor := .ok ()
  openaiCtor := .ok ()
  msCreate := .ok (.stream [some "ok".data])
  chatCreate := .ok (.completion [some "ok".data])

def cfgOpenaiOk : Cfg :=
  mkCfg [("llm_provider", "openai"), ("openai_api_key", "k"), ("openai_model_name", "m")]

def cfgOpenaiNoKey : Cfg :=
  mkCfg [("llm_provider", "openai"), ("openai_model_name", "m")]

def cfgCfOk : Cfg :=
  mkCfg [("llm_provider", "cloudflare"), ("cloudflare_api_key", "k"),
    ("cloudflare_model_name", "m"), ("cloudflare_account_id", "acc")]

def cfgErnieOk : Cfg :=
  mkCfg [("llm_provider", "ernie"), ("ernie_api_key", "k"), ("ernie_secret_key", "s"),
    ("ernie_base_url", "https://e.example")]

def cfgG4f : Cfg := mkCfg [("llm_provider", "g4f")]

def cfgPoll : Cfg := mkCfg [("llm_provider", "pollinations")]

def cfgQwenOk : Cfg :=
  mkCfg [("llm_provider", "qwen"), ("qwen_api_key", "k"), ("qwen_model_name", "m")]

def cfgMsOk : Cfg :=
  mkCfg [("llm_provider", "modelscope"), ("modelscope_api_key", "k"),
    ("modelscope_model_name", "m")]

def cfgGemOk : Cfg :=
  mkCfg [("llm_provider", "gemini"), ("gemini_api_key", "k"), ("gemini_model_name", "m"),
    ("gemini_base_url", "https://g.example")]

-- the providers whose configuration passes through the validation block
def credProviders : List (List Char) :=
  ["moonshot".data, "openai".data, "oneapi".data, "azure".data, "gemini".data,
   "qwen".data, "cloudflare".data, "deepseek".data, "modelscope".data, "ernie".data]

-- whether the resolved configuration of the selected provider is missing a
-- required credential field (the ernie secret_key failure shows up as the
-- Except.error of resolveCreds)
def missingCred (cfg : Cfg) : Bool :=
  match resolveCreds cfg (providerOf cfg) with
  | .error _ => true
  | .ok none => false
  | .ok (some cr) => !truthy cr.api_key || !truthy cr.model_name || cr.base_url.isEmpty

-- Specification-side characterization of the configuration-failure message the
-- dispatcher body raises for a provider with a missing credential field,
-- mirroring the priority of the source checks (ernie secret_key first, then
-- api_key, model_name, base_url).
def credFailureMsg (cfg : Cfg) : List Char :=
  let p := providerOf cfg
  if provKind p = .ernie ∧ !truthy (cget cfg "ernie_secret_key") then
    p ++ ": secret_key is not set, please set it in the config.toml file.".data
  else
    match resolveCreds cfg p with
    | .error e => e
    | .ok none => "name ".data ++ [sqc] ++ "api_key".data ++ [sqc] ++ " is not defined".data
    | .ok (some cr) =>
      if !truthy cr.api_key then
        p ++ ": api_key is not set, please set it in the config.toml file.".data
      else if !truthy cr.model_name then
        p ++ ": model_name is not set, please set it in the config.toml file.".data
      else
        p ++ ": base_url is not set, please set it in the config.toml file.".data

-- does a dispatcher outcome contain an embedded newline
def hasNLRet : LLMRet → Bool
  | .str s => hasChar '\n' s
  | .pynone => false

-- the cleanliness property of the script-generation output claimed by the
-- specification: no asterisk, no hash, no complete bracketed span, no
-- complete parenthetical span
def cleanScript (l : List Char) : Prop :=
  hasChar '*' l = false ∧ hasChar '#' l = false ∧
  hasSpan '[' ']' l = false ∧ hasSpan '(' ')' l = false

-- an attempt outcome on which generate_terms can make no progress: not the
-- sentinel, the strict parse raises, and any salvage span also fails to parse
def attemptFails (loads : List Char → Except (List Char) PyJson) : LLMRet → Prop
  | .pynone => True
  | .str s =>
    errTagged s = false ∧ (∀ v, loads s ≠ .ok v) ∧
    (∀ span v, reSearchSpan '[' ']' s = some span → loads span ≠ .ok v)

-- dispatcher and parse stubs used by concrete counterexamples and witnesses

def stubDHello : Nat → LLMRet :=
  fun i => if i = 0 then .str "\"hello\"".data else .str "zzz".data

def stubLoadsHello : List Char → Except (List Char) PyJson :=
  fun s => if s = "\"hello\"".data then .ok (.str "hello".data)
    else .error "Expecting value: line 1 column 1 (char 0)".data

def stubDSalvage : Nat → LLMRet :=
  fun _ => .str "x [\"a\", 1] y".data

def stubLoadsSalvage : List Char → Except (List Char) PyJson :=
  fun s => if s = "[\"a\", 1]".data then .ok (.arr [.str "a".data, .num 1])
    else .error "Expecting value: line 1 column 1 (char 0)".data

def stubDNotJson : Nat → LLMRet :=
  fun _ => .str "not json at all".data

def stubLoadsErr : List Char → Except (List Char) PyJson :=
  fun _ => .error "Expecting value: line 1 column 1 (char 0)".data

def stubDStrict : Nat → LLMRet :=
  fun _ => .str "[\"a\", \"b\", \"c\"]".data

def stubLoadsStrict : List Char → Except (List Char) PyJson :=
  fun s => if s = "[\"a\", \"b\", \"c\"]".data
    then .ok (.arr [.str "a".data, .str "b".data, .str "c".data])
    else .error "Expecting value: line 1 column 1 (char 0)".data

def stubD10 : Nat → LLMRet :=
  fun _ => .str "Error: quota hit [\"a\", \"b\"]".data

def stubLoads10 : List Char → Except (List Char) PyJson :=
  fun s => if s = "[\"a\", \"b\"]".data
    then .ok (.arr [.str "a".data, .str "b".data])
    else .error "Expecting value: line 1 column 1 (char 0)".data

-- ---------------------------------------------------------------------------
-- Helper lemmas about the string utilities
-- ---------------------------------------------------------------------------

lemma pfx_append (p r : List Char) : pfx p (p ++ r) = true := by
  induction p with
  | nil => rfl
  | cons a as ih => simp [pfx, ih]

lemma strIn_of_pfx (pat l : List Char) (h : pfx pat l = true) : strIn pat l = true := by
  cases l with
  | nil => simpa [strIn] using h
  | cons x xs => simp [strIn, h]

lemma errTagged_errTag (m : List Char) : errTagged (errTag m) = true := by
  unfold errTagged errTag
  exact strIn_of_pfx _ _ (pfx_append _ _)

lemma errTagged_ne_nil (s : List Char) (h : errTagged s = true) : s ≠ [] := by
  intro hs
  rw [hs] at h
  exact absurd h (by decide)

lemma strIn_append_right (pat l m : List Char) (h : strIn pat m = true) :
    strIn pat (l ++ m) = true := by
  induction l with
  | nil => simpa using h
  | cons a as ih =>
    cases has : pfx pat (a :: (as ++ m)) with
    | true => simp [strIn, has]
    | false => simp [strIn, has, ih]

lemma hasChar_iff_mem (ch : Char) (l : List Char) : hasChar ch l = true ↔ ch ∈ l := by
  simp [hasChar, List.any_eq_true]

lemma hasChar_false_of_not_mem {ch : Char} {l : List Char} (h : ch ∉ l) :
    hasChar ch l = false := by
  rw [Bool.eq_false_iff]
  intro hc
  exact h ((hasChar_iff_mem ch l).mp hc)

lemma not_mem_of_hasChar_false {ch : Char} {l : List Char} (h : hasChar ch l = false) :
    ch ∉ l := by
  intro hm
  rw [(hasChar_iff_mem ch l).mpr hm] at h
  cases h

lemma hasChar_mono {ch : Char} {l' l : List Char} (hsub : l'.Sublist l)
    (h : hasChar ch l = false) : hasChar ch l' = false :=
  hasChar_false_of_not_mem (fun hm => not_mem_of_hasChar_false h (hsub.subset hm))

lemma stripNewlines_nl (l : List Char) : hasChar '\n' (stripNewlines l) = false := by
  apply hasChar_false_of_not_mem
  simp [stripNewlines, List.mem_filter]

lemma hasSpan_false_of_not_mem {o c : Char} {l : List Char} (h : c ∉ l) :
    hasSpan o c l = false := by
  induction l with
  | nil => rfl
  | cons x xs ih =>
    have hx : c ∉ xs := fun hm => h (List.mem_cons_of_mem _ hm)
    simp [hasSpan, ih hx, hasChar_false_of_not_mem hx]

lemma hasSpan_mono {o c : Char} {l' l : List Char} (hsub : l'.Sublist l)
    (h : hasSpan o c l = false) : hasSpan o c l' = false := by
  induction hsub with
  | slnil => rfl
  | cons a hs ih =>
    rw [show hasSpan o c (a :: _) = ((a = o && hasChar c _) || hasSpan o c _) from rfl] at h
    rcases Bool.or_eq_false_iff.mp h with ⟨_, h2⟩
    exact ih h2
  | cons₂ a hs ih =>
    rw [show hasSpan o c (a :: _) = ((a = o && hasChar c _) || hasSpan o c _) from rfl] at h
    rcases Bool.or_eq_false_iff.mp h with ⟨h1, h2⟩
    show ((a = o && hasChar c _) || hasSpan o c _) = false
    rw [Bool.or_eq_false_iff]
    refine ⟨?_, ih h2⟩
    rcases Bool.and_eq_false_iff.mp h1 with h1 | h1
    · rw [Bool.and_eq_false_iff]; exact Or.inl h1
    · rw [Bool.and_eq_false_iff]; exact Or.inr (hasChar_mono hs h1)

lemma lastIdxOf_eq_none {c : Char} {l : List Char} :
    lastIdxOf c l = none ↔ c ∉ l := by
  induction l with
  | nil => simp [lastIdxOf]
  | cons x xs ih =>
    simp only [lastIdxOf]
    cases hm : lastIdxOf c xs with
    | some k =>
      simp only []
      constructor
      · intro h; cases h
      · intro h
        exact absurd (ih.mpr (fun hx => h (List.mem_cons_of_mem _ hx))) (by simp [hm])
    | none =>
      have hx : c ∉ xs := ih.mp hm
      by_cases hxc : x = c
      · simp [hxc]
      · have hcx : ¬c = x := fun h => hxc h.symm
        simp [hxc, hx, hcx]

lemma lastIdxOf_drop {c : Char} {l : List Char} {k : Nat}
    (h : lastIdxOf c l = some k) : c ∉ l.drop (k + 1) := by
  induction l generalizing k with
  | nil => cases h
  | cons x xs ih =>
    simp only [lastIdxOf] at h
    cases hm : lastIdxOf c xs with
    | some j =>
      rw [hm] at h
      injection h with h
      subst h
      simpa using ih hm
    | none =>
      rw [hm] at h
      by_cases hxc : x = c
      · rw [if_pos hxc] at h
        injection h with h
        subst h
        simpa using lastIdxOf_eq_none.mp hm
      · rw [if_neg hxc] at h
        cases h

lemma takeWhile_nl_eq_self {l : List Char} (h : '\n' ∉ l) :
    l.takeWhile (fun ch => ch != '\n') = l := by
  induction l with
  | nil => rfl
  | cons x xs ih =>
    have hx : x ≠ '\n' := fun he => h (he ▸ List.mem_cons_self x xs)
    have hxs : '\n' ∉ xs := fun hm => h (List.mem_cons_of_mem _ hm)
    simp [List.takeWhile_cons, hx, ih hxs]

-- ---------------------------------------------------------------------------
-- Lemmas about the greedy span removal
-- ---------------------------------------------------------------------------

lemma reSubSpanGo_id (o c : Char) (fuel : Nat) (l : List Char) (h : c ∉ l) :
    reSubSpanGo o c fuel l = l := by
  induction fuel generalizing l with
  | zero => cases l <;> rfl
  | succ n ih =>
    cases l with
    | nil => rfl
    | cons x xs =>
      have hx : c ∉ xs := fun hm => h (List.mem_cons_of_mem _ hm)
      have htw : c ∉ xs.takeWhile (fun ch => ch != '\n') :=
        fun hm => hx ((List.takeWhile_prefix _).sublist.subset hm)
      simp only [reSubSpanGo]
      by_cases hxo : x = o
      · rw [if_pos hxo, lastIdxOf_eq_none.mpr htw, ih xs hx]
      · rw [if_neg hxo, ih xs hx]

lemma reSubSpanGo_sublist (o c : Char) (fuel : Nat) (l : List Char) :
    (reSubSpanGo o c fuel l).Sublist l := by
  induction fuel generalizing l with
  | zero => cases l <;> simp [reSubSpanGo]
  | succ n ih =>
    cases l with
    | nil => simp [reSubSpanGo]
    | cons x xs =>
      simp only [reSubSpanGo]
      by_cases hxo : x = o
      · rw [if_pos hxo]
        cases hm : lastIdxOf c (xs.takeWhile (fun ch => ch != '\n')) with
        | some k =>
          exact ((ih _).trans (List.drop_sublist _ _)).trans (List.sublist_cons_self x xs)
        | none => exact (ih xs).cons₂ x
      · rw [if_neg hxo]
        exact (ih xs).cons₂ x

lemma reSubSpanGo_noSpan (o c : Char) (fuel : Nat) (l : List Char)
    (hf : l.length ≤ fuel) (hnl : '\n' ∉ l) :
    hasSpan o c (reSubSpanGo o c fuel l) = false := by
  induction fuel generalizing l with
  | zero =>
    have : l = [] := List.length_eq_zero.mp (Nat.le_zero.mp hf)
    subst this
    rfl
  | succ n ih =>
    cases l with
    | nil => rfl
    | cons x xs =>
      have hnxs : '\n' ∉ xs := fun hm => hnl (List.mem_cons_of_mem _ hm)
      have htw : xs.takeWhile (fun ch => ch != '\n') = xs := takeWhile_nl_eq_self hnxs
      have hlen : xs.length ≤ n := by simpa using hf
      simp only [reSubSpanGo, htw]
      by_cases hxo : x = o
      · rw [if_pos hxo]
        cases hm : lastIdxOf c xs with
        | some k =>
          have hc : c ∉ xs.drop (k + 1) := lastIdxOf_drop hm
          show hasSpan o c (reSubSpanGo o c n (xs.drop (k + 1))) = false
          rw [reSubSpanGo_id _ _ _ _ hc]
          exact hasSpan_false_of_not_mem hc
        | none =>
          have hc : c ∉ xs := lastIdxOf_eq_none.mp hm
          show hasSpan o c (x :: reSubSpanGo o c n xs) = false
          rw [reSubSpanGo_id _ _ _ _ hc]
          show ((x = o && hasChar c xs) || hasSpan o c xs) = false
          simp [hasChar_false_of_not_mem hc, hasSpan_false_of_not_mem hc]
      · rw [if_neg hxo]
        have hr := ih xs hlen hnxs
        show ((x = o && hasChar c (reSubSpanGo o c n xs)) || hasSpan o c (reSubSpanGo o c n xs)) = false
        simp [hxo, hr]

lemma reSubSpan_sublist (o c : Char) (l : List Char) : (reSubSpan o c l).Sublist l :=
  reSubSpanGo_sublist o c l.length l

lemma reSubSpan_noSpan (o c : Char) (l : List Char) (hnl : '\n' ∉ l) :
    hasSpan o c (reSubSpan o c l) = false :=
  reSubSpanGo_noSpan o c l.length l (Nat.le_refl _) hnl

-- ---------------------------------------------------------------------------
-- The blank-line split/rejoin of format_response is the identity
-- ---------------------------------------------------------------------------

lemma splitNN_ne_nil (l : List Char) : splitNN l ≠ [] := by
  match l with
  | [] => simp [splitNN]
  | [x] => simp [splitNN]
  | x :: y :: rest =>
    simp only [splitNN]
    by_cases h : x = '\n' ∧ y = '\n'
    · rw [if_pos h]; simp
    · rw [if_neg h]
      cases hm : splitNN (y :: rest) with
      | nil => simp
      | cons a t => simp

lemma joinNN_splitNN (l : List Char) : joinNN (splitNN l) = l := by
  suffices h : ∀ n l2, List.length l2 = n → joinNN (splitNN l2) = l2 from h l.length l rfl
  intro n
  induction n using Nat.strong_induction_on with
  | _ n ih =>
    intro l2 hn
    rcases l2 with _ | ⟨x, _ | ⟨y, rest⟩⟩
    · rfl
    · rfl
    · simp only [splitNN]
      by_cases h : x = '\n' ∧ y = '\n'
      · rw [if_pos h]
        obtain ⟨hx, hy⟩ := h
        have hlt : rest.length < n := by
          simp only [List.length_cons] at hn
          omega
        have hr : joinNN (splitNN rest) = rest := ih rest.length hlt rest rfl
        cases hsr : splitNN rest with
        | nil => exact absurd hsr (splitNN_ne_nil rest)
        | cons a t =>
          rw [hsr] at hr
          show joinNN ([] :: a :: t) = x :: y :: rest
          have hj : joinNN ([] :: a :: t) = '\n' :: '\n' :: joinNN (a :: t) := rfl
          rw [hj, hr, hx, hy]
      · rw [if_neg h]
        have hlt : (y :: rest).length < n := by
          simp only [List.length_cons] at hn ⊢
          omega
        have hr : joinNN (splitNN (y :: rest)) = y :: rest :=
          ih (y :: rest).length hlt (y :: rest) rfl
        cases hm : splitNN (y :: rest) with
        | nil => exact absurd hm (splitNN_ne_nil _)
        | cons hd t =>
          rw [hm] at hr
          cases t with
          | nil =>
            show joinNN [x :: hd] = x :: y :: rest
            have h1 : joinNN [x :: hd] = x :: hd := rfl
            have h2 : joinNN [hd] = hd := rfl
            rw [h2] at hr
            rw [h1, hr]
          | cons b t2 =>
            show joinNN ((x :: hd) :: b :: t2) = x :: y :: rest
            have h1 : joinNN ((x :: hd) :: b :: t2) =
                x :: (hd ++ '\n' :: '\n' :: joinNN (b :: t2)) := rfl
            have h2 : joinNN (hd :: b :: t2) = hd ++ '\n' :: '\n' :: joinNN (b :: t2) := rfl
            rw [h2] at hr
            rw [h1, hr]

lemma pyStrip_sublist (l : List Char) : (pyStrip l).Sublist l := by
  unfold pyStrip
  have h1 : (l.dropWhile Char.isWhitespace) <:+ l := List.dropWhile_suffix _
  have h2 : ((l.dropWhile Char.isWhitespace).reverse.dropWhile Char.isWhitespace) <:+
      (l.dropWhile Char.isWhitespace).reverse := List.dropWhile_suffix _
  have h3 : ((l.dropWhile Char.isWhitespace).reverse.dropWhile Char.isWhitespace).reverse <+:
      l.dropWhile Char.isWhitespace := by
    rw [← List.reverse_suffix]
    simpa using h2
  exact h3.sublist.trans h1.sublist

-- ---------------------------------------------------------------------------
-- format_response produces clean output on newline-free input
-- ---------------------------------------------------------------------------

lemma format_response_eq (s : List Char) :
    format_response s =
      reSubSpan '(' ')' (reSubSpan '[' ']'
        ((s.filter (fun c => c != '*')).filter (fun c => c != '#'))) := by
  simp [format_response, joinNN_splitNN]

lemma cleanScript_nil : cleanScript [] := ⟨rfl, rfl, rfl, rfl⟩

lemma cleanScript_mono {l' l : List Char} (hsub : l'.Sublist l) (h : cleanScript l) :
    cleanScript l' :=
  ⟨hasChar_mono hsub h.1, hasChar_mono hsub h.2.1,
   hasSpan_mono hsub h.2.2.1, hasSpan_mono hsub h.2.2.2⟩

lemma format_response_clean (s : List Char) (h : hasChar '\n' s = false) :
    cleanScript (format_response s) := by
  rw [format_response_eq]
  have hs2nl : '\n' ∉ (s.filter (fun c => c != '*')).filter (fun c => c != '#') := by
    intro hm
    exact not_mem_of_hasChar_false h
      ((List.filter_sublist _).subset ((List.filter_sublist _).subset hm))
  have hstar : hasChar '*' ((s.filter (fun c => c != '*')).filter (fun c => c != '#')) = false := by
    apply hasChar_false_of_not_mem
    intro hm
    rcases List.mem_filter.mp hm with ⟨hm2, _⟩
    rcases List.mem_filter.mp hm2 with ⟨_, hb⟩
    simp at hb
  have hhash : hasChar '#' ((s.filter (fun c => c != '*')).filter (fun c => c != '#')) = false := by
    apply hasChar_false_of_not_mem
    intro hm
    rcases List.mem_filter.mp hm with ⟨_, hb⟩
    simp at hb
  have hbr : hasSpan '[' ']'
      (reSubSpan '[' ']' ((s.filter (fun c => c != '*')).filter (fun c => c != '#'))) = false :=
    reSubSpan_noSpan _ _ _ hs2nl
  have hsub3 := reSubSpan_sublist '[' ']'
    ((s.filter (fun c => c != '*')).filter (fun c => c != '#'))
  have h3nl : '\n' ∉ reSubSpan '[' ']'
      ((s.filter (fun c => c != '*')).filter (fun c => c != '#')) :=
    fun hm => hs2nl (hsub3.subset hm)
  have hpar : hasSpan '(' ')' (reSubSpan '(' ')' (reSubSpan '[' ']'
      ((s.filter (fun c => c != '*')).filter (fun c => c != '#')))) = false :=
    reSubSpan_noSpan _ _ _ h3nl
  have hsub4 := reSubSpan_sublist '(' ')' (reSubSpan '[' ']'
    ((s.filter (fun c => c != '*')).filter (fun c => c != '#')))
  exact ⟨hasChar_mono hsub4 (hasChar_mono hsub3 hstar),
    hasChar_mono hsub4 (hasChar_mono hsub3 hhash),
    hasSpan_mono hsub4 hbr, hpar⟩

-- ---------------------------------------------------------------------------
-- Lemmas about the generate_script loop
-- ---------------------------------------------------------------------------

lemma scriptGo_count (d : Nat → LLMRet) (rem i : Nat) (fs : List Char) :
    (scriptGo d rem i fs).2 ≤ i + rem := by
  induction rem generalizing i fs with
  | zero => simp [scriptGo]
  | succ n ih =>
    simp only [scriptGo]
    split
    · exact (ih (i + 1) _).trans (by omega)
    · split
      · show i + 1 ≤ i + (n + 1)
        omega
      · exact (ih (i + 1) _).trans (by omega)

lemma scriptGo_clean (d : Nat → LLMRet) (h : ∀ k, hasNLRet (d k) = false)
    (rem i : Nat) (fs : List Char) (hfs : cleanScript fs) :
    cleanScript (scriptGo d rem i fs).1 := by
  induction rem generalizing i fs with
  | zero => simpa [scriptGo] using hfs
  | succ n ih =>
    have hfs' : cleanScript
        (match d i with
         | .str s => if s.isEmpty then fs else format_response s
         | .pynone => fs) := by
      cases hd : d i with
      | str s =>
        by_cases hs : s.isEmpty
        · simpa [hs] using hfs
        · have hnl : hasChar '\n' s = false := by
            have := h i
            rw [hd] at this
            exact this
          simpa [hs] using format_response_clean s hnl
      | pynone => simpa using hfs
    simp only [scriptGo]
    split
    · exact ih (i + 1) _ hfs'
    · split
      · simpa using hfs'
      · exact ih (i + 1) _ hfs'

-- ---------------------------------------------------------------------------
-- Lemmas about the generate_terms loop
-- ---------------------------------------------------------------------------

lemma termsGo_fails (loads : List Char → Except (List Char) PyJson)
    (d : Nat → LLMRet) (h : ∀ k, attemptFails loads (d k)) (rem i : Nat) :
    termsGo loads d rem i (.arr []) .init = (.val (.arr []) .init, i + rem) := by
  induction rem generalizing i with
  | zero => simp [termsGo]
  | succ n ih =>
    have hstep : termStep loads (d i) (.arr []) .init = .next (.arr []) .init := by
      cases hd : d i with
      | pynone => rfl
      | str s =>
        have hf := h i
        rw [hd] at hf
        obtain ⟨he, hok, hsp⟩ := hf
        simp only [termStep, he]
        cases hl : loads s with
        | ok v => exact absurd hl (hok v)
        | error e =>
          by_cases hs : s.isEmpty
          · simp [hs, afterParse, pyTruthy]
          · simp only [hs, if_neg]
            cases hspan : reSearchSpan '[' ']' s with
            | some span =>
              cases hl2 : loads span with
              | ok v => exact absurd hl2 (hsp span v hspan)
              | error e2 => simp [hl2, afterParse, pyTruthy]
            | none => simp [afterParse, pyTruthy]
    simp only [termsGo, hstep]
    have := ih (i + 1)
    rw [this]
    congr 1
    omega

-- termStep preserves the provenance invariant: a state tagged strictValid is a
-- list of strings
lemma termStep_inv (loads : List Char → Except (List Char) PyJson)
    (resp : LLMRet) (j : PyJson) (src : Src)
    (hinv : src = .strictValid → isStrList j = true) :
    (∀ v s, termStep loads resp j src = .brk v s → (s = .strictValid → isStrList v = true)) ∧
    (∀ v s, termStep loads resp j src = .next v s → (s = .strictValid → isStrList v = true)) := by
  have hafter : ∀ (j2 : PyJson) (s2 : Src), (s2 = .strictValid → isStrList j2 = true) →
      (∀ v s, afterParse j2 s2 = .brk v s → (s = .strictValid → isStrList v = true)) ∧
      (∀ v s, afterParse j2 s2 = .next v s → (s = .strictValid → isStrList v = true)) := by
    intro j2 s2 h2
    unfold afterParse
    constructor
    · intro v s hb
      split at hb
      · split at hb
        · split at hb
          · injection hb with h1 h2'
            subst h1; subst h2'
            exact h2
          · cases hb
        · cases hb
      · cases hb
    · intro v s hb
      split at hb
      · split at hb
        · split at hb
          · cases hb
          · injection hb with h1 h2'
            subst h1; subst h2'
            exact h2
        · cases hb
      · injection hb with h1 h2'
        subst h1; subst h2'
        exact h2
  cases resp with
  | pynone => exact hafter j src hinv
  | str s =>
    simp only [termStep]
    by_cases he : errTagged s
    · simp only [he, if_pos]
      constructor
      · intro v s2 hb; cases hb
      · intro v s2 hb; cases hb
    · simp only [he, Bool.false_eq_true, if_neg, if_false]
      cases hl : loads s with
      | ok v0 =>
        by_cases hv : isStrList v0
        · simp only [hv, if_pos]
          exact hafter v0 .strictValid (fun _ => hv)
        · simp only [hv, if_neg, Bool.false_eq_true, if_false]
          constructor
          · intro v s2 hb; cases hb
          · intro v s2 hb
            injection hb with h1 h2'
            subst h1; subst h2'
            intro hcon
            cases hcon
      | error e =>
        by_cases hs : s.isEmpty
        · simp only [hs, if_pos]
          exact hafter j src hinv
        · simp only [hs, Bool.false_eq_true, if_neg, if_false]
          cases hspan : reSearchSpan '[' ']' s with
          | some span =>
            cases hl2 : loads span with
            | ok v1 =>
              simp only [hl2]
              refine hafter v1 .salvaged ?_
              intro hcon
              cases hcon
            | error e2 =>
              simp only [hl2]
              exact hafter j src hinv
          | none => exact hafter j src hinv

lemma termsGo_strictValid (loads : List Char → Except (List Char) PyJson)
    (d : Nat → LLMRet) (rem i : Nat) (j : PyJson) (src : Src)
    (hinv : src = .strictValid → isStrList j = true) :
    ∀ v n, termsGo loads d rem i j src = (.val v .strictValid, n) → isStrList v = true := by
  induction rem generalizing i j src with
  | zero =>
    intro v n h
    simp only [termsGo] at h
    injection h with h1 h2
    injection h1 with h3 h4
    subst h3
    exact hinv h4
  | succ m ih =>
    intro v n h
    simp only [termsGo] at h
    cases hstep : termStep loads (d i) j src with
    | retRaw s => rw [hstep] at h; cases h
    | tyErr => rw [hstep] at h; cases h
    | brk v2 s2 =>
      rw [hstep] at h
      injection h with h1 h2
      injection h1 with h3 h4
      subst h3
      exact (termStep_inv loads (d i) j src hinv).1 v2 s2 hstep h4
    | next v2 s2 =>
      rw [hstep] at h
      exact ih (i + 1) v2 s2 ((termStep_inv loads (d i) j src hinv).2 v2 s2 hstep) v n h

-- ---------------------------------------------------------------------------
-- Newline-freeness of the successful dispatcher outputs, per adapter branch
-- ---------------------------------------------------------------------------

lemma ok_str_if {g s : List Char}
    (h : (if g.isEmpty = true then (Except.ok (LLMRet.str []) : Except (List Char) LLMRet)
          else Except.ok (LLMRet.str (stripNewlines g))) = Except.ok (LLMRet.str s)) :
    hasChar '\n' s = false := by
  by_cases hg : g.isEmpty = true
  · rw [if_pos hg] at h
    injection h with h; injection h with h; subst h; rfl
  · rw [if_neg hg] at h
    injection h with h; injection h with h; subst h
    exact stripNewlines_nl _

lemma pollBranch_nl (env : NetEnv) (s : List Char)
    (h : pollBranch env = .ok (.str s)) : hasChar '\n' s = false := by
  unfold pollBranch at h
  split at h
  · cases h
  · cases h
  · split at h
    · injection h with h; injection h with h; subst h
      exact stripNewlines_nl _
    · cases h

lemma qwenBranch_nl (env : NetEnv) (s : List Char)
    (h : qwenBranch env = .ok (.str s)) : hasChar '\n' s = false := by
  unfold qwenBranch at h
  split at h
  · cases h
  · cases h
  · cases h
  · split at h
    · cases h
    · injection h with h; injection h with h; subst h
      exact stripNewlines_nl _

lemma geminiBranch_nl (cr : Creds) (env : NetEnv) (s : List Char)
    (h : geminiBranch cr env = .ok (.str s)) : hasChar '\n' s = false := by
  unfold geminiBranch at h
  split at h
  · injection h with h; injection h with h; subst h; rfl
  · split at h
    · injection h with h; injection h with h; subst h; rfl
    · split at h
      · injection h with h; injection h with h; subst h; rfl
      · split at h
        · injection h with h; injection h with h; subst h; rfl
        · split at h
          · injection h with h; injection h with h; subst h; rfl
          · exact ok_str_if h

lemma msBranch_nl (env : NetEnv) (s : List Char)
    (h : msBranch env = .ok (.str s)) : hasChar '\n' s = false := by
  unfold msBranch at h
  split at h
  · cases h
  · cases h
  · rename_i chunks heq
    by_cases hg : (pyStrip ((chunks.filterMap id).flatten)).isEmpty = true
    · rw [if_pos hg] at h
      cases h
    · rw [if_neg hg] at h
      injection h with h; injection h with h; subst h
      exact stripNewlines_nl _

lemma chatBranch_nl (p : List Char) (env : NetEnv) (s : List Char)
    (h : chatBranch p env = .ok (.str s)) : hasChar '\n' s = false := by
  unfold chatBranch at h
  split at h
  · cases h
  · cases h
  · cases h
  · split at h
    · cases h
    · split at h
      · cases h
      · injection h with h; injection h with h; subst h
        exact stripNewlines_nl _

lemma dispatchKnown_nl (p : List Char) (cr : Creds) (env : NetEnv) (s : List Char)
    (hcf : provKind p ≠ .cloudflare) (hern : provKind p ≠ .ernie)
    (h : dispatchKnown p cr env = .ok (.str s)) : hasChar '\n' s = false := by
  unfold dispatchKnown at h
  split at h
  · exact qwenBranch_nl env s h
  · exact geminiBranch_nl cr env s h
  · rename_i heq
    exact absurd heq hcf
  · rename_i heq
    exact absurd heq hern
  · split at h
    · cases h
    · split at h
      · exact msBranch_nl env s h
      · split at h
        · cases h
        · exact chatBranch_nl p env s h

lemma body_nl (cfg : Cfg) (env : NetEnv) (s : List Char)
    (hcf : provKind (providerOf cfg) ≠ .cloudflare)
    (hern : provKind (providerOf cfg) ≠ .ernie)
    (h : generateResponseBody cfg env = .ok (.str s)) : hasChar '\n' s = false := by
  simp only [generateResponseBody] at h
  split at h
  · split at h
    · cases h
    · injection h with h
      injection h with h
      subst h
      exact stripNewlines_nl _
  · exact pollBranch_nl env s h
  · split at h
    · cases h
    · split at h
      · cases h
      · split at h
        · cases h
        · exact dispatchKnown_nl _ _ _ _ hcf hern h

-- ---------------------------------------------------------------------------
-- Configuration-failure lemmas for the Dispatcher
-- ---------------------------------------------------------------------------

lemma body_resolve_fail (cfg : Cfg) (env : NetEnv)
    (hg4 : provKind (providerOf cfg) ≠ .g4f)
    (hpo : provKind (providerOf cfg) ≠ .pollinations)
    (e : List Char) (hres : resolveCreds cfg (providerOf cfg) = .error e) :
    generate_response cfg env = .str (errTag e) := by
  unfold generate_response
  simp only [generateResponseBody]
  cases hk : provKind (providerOf cfg) <;>
    first
      | exact absurd hk hg4
      | exact absurd hk hpo
      | simp [hres]

lemma body_conf_fail (cfg : Cfg) (env : NetEnv)
    (hg4 : provKind (providerOf cfg) ≠ .g4f)
    (hpo : provKind (providerOf cfg) ≠ .pollinations)
    (hol : provKind (providerOf cfg) ≠ .ollama)
    (hun : provKind (providerOf cfg) ≠ .unknown)
    (cr : Creds) (hres : resolveCreds cfg (providerOf cfg) = .ok (some cr))
    (e : List Char) (hval : validateCreds (providerOf cfg) cr = .error e) :
    generate_response cfg env = .str (errTag e) := by
  unfold generate_response
  simp only [generateResponseBody]
  cases hk : provKind (providerOf cfg) <;>
    first
      | exact absurd hk hg4
      | exact absurd hk hpo
      | exact absurd hk hol
      | exact absurd hk hun
      | simp [hres, hval]

lemma resolve_error_char (cfg : Cfg) (p : List Char) (e : List Char)
    (h : resolveCreds cfg p = .error e) :
    provKind p = .ernie ∧ (!truthy (cget cfg "ernie_secret_key")) = true ∧
      e = p ++ ": secret_key is not set, please set it in the config.toml file.".data := by
  unfold resolveCreds at h
  cases hk : provKind p <;> rw [hk] at h <;> try cases h
  by_cases hs : (!truthy (cget cfg "ernie_secret_key")) = true
  · rw [if_pos hs] at h
    injection h with h
    exact ⟨rfl, hs, h.symm⟩
  · rw [if_neg hs] at h
    cases h

lemma resolve_ok_some_ernie (cfg : Cfg) (p : List Char) (cr : Creds)
    (hk : provKind p = .ernie) (h : resolveCreds cfg p = .ok (some cr)) :
    (!truthy (cget cfg "ernie_secret_key")) = false := by
  unfold resolveCreds at h
  rw [hk] at h
  by_cases hs : (!truthy (cget cfg "ernie_secret_key")) = true
  · rw [if_pos hs] at h
    cases h
  · exact Bool.eq_false_iff.mpr hs

-- ---------------------------------------------------------------------------
-- Shared loop facts used by several claim theorems
-- ---------------------------------------------------------------------------

-- the sentinel check of generate_terms returns the raw response immediately
lemma termsGo_sentinel (loads : List Char → Except (List Char) PyJson)
    (d : Nat → LLMRet) (rem i : Nat) (j : PyJson) (src : Src) (s : List Char)
    (hd : d i = .str s) (htag : errTagged s = true) :
    termsGo loads d (rem + 1) i j src = (.raw s, i + 1) := by
  simp [termsGo, termStep, hd, htag]

-- a first-attempt truthy, non-quota formatted response is accepted immediately
lemma scriptGo_break (d : Nat → LLMRet) (rem i : Nat) (fs s : List Char)
    (hd : d i = .str s) (hne : s.isEmpty = false)
    (hq : strIn quotaMarker (format_response s) = false)
    (hfne : (format_response s).isEmpty = false) :
    scriptGo d (rem + 1) i fs = (format_response s, i + 1) := by
  simp [scriptGo, hd, hne, hq, hfne]

-- ---------------------------------------------------------------------------
-- The claims
-- ---------------------------------------------------------------------------

/-- Claim C1 counterexample: the claim says every exception arising during
configuration resolution, transport, SDK use or JSON decoding is converted
into a failure string of the form "Error: " followed by the message.  On the
gemini path this is false: with a complete gemini configuration and an SDK
exception raised while configuring the client (gemConfigure raises "boom"),
_generate_response returns the empty string, which carries no "Error: " tag
at all. -/
theorem c1_counterexample :
    generate_response cfgGemOk { envDefault with gemConfigure := .error "boom".data } =
      .str [] ∧
    errTagged [] = false :=
  ⟨rfl, rfl⟩

/-- Claim C1 as amended: _generate_response is total (the embedding returns a
value for every configuration and every backend behavior), and an exception
reaching the dispatch boundary is converted into the string "Error: " ++ str(e)
on the g4f, pollinations, SDK-chat, qwen, cloudflare, ernie and modelscope
paths — but not on the gemini path, whose adapter swallows its own failures
and returns the empty string instead, and on the ernie path a response body
lacking a result field makes the function return the Python None value rather
than a string. -/
theorem c1_amended (m : List Char) :
    generate_response cfgG4f { envDefault with g4f := .error m } = .str (errTag m) ∧
    generate_response cfgPoll { envDefault with poll := .reqExn m } =
      .str (errTag ("[pollinations] request failed: ".data ++ m)) ∧
    generate_response cfgOpenaiOk { envDefault with chatCreate := .error m } =
      .str (errTag m) ∧
    generate_response cfgQwenOk { envDefault with qwen := .error m } = .str (errTag m) ∧
    generate_response cfgCfOk { envDefault with cloudflare := .error m } = .str (errTag m) ∧
    generate_response cfgErnieOk { envDefault with ernieToken := .error m } =
      .str (errTag m) ∧
    generate_response cfgMsOk { envDefault with msCreate := .error m } = .str (errTag m) ∧
    generate_response cfgGemOk { envDefault with gemGen := .error m } = .str [] ∧
    generate_response cfgErnieOk { envDefault with ernieMain := .ok none } = .pynone :=
  ⟨rfl, rfl, rfl, rfl, rfl, rfl, rfl, rfl, rfl⟩

/-- Claim C2 counterexample: the claim says every successful dispatcher result
has newlines stripped, in particular on the cloudflare path.  False: the
cloudflare branch returns the response payload verbatim (line 325 of the
source has no replace call), so a payload containing a newline is handed back
unchanged and untagged. -/
theorem c2_counterexample :
    generate_response cfgCfOk { envDefault with cloudflare := .ok "a\nb".data } =
      .str "a\nb".data ∧
    hasChar '\n' "a\nb".data = true ∧
    errTagged "a\nb".data = false :=
  ⟨rfl, rfl, rfl⟩

/-- Claim C2 as amended: for every provider other than cloudflare and ernie,
every string the Dispatcher returns that does not carry the "Error: " tag is
free of embedded newlines; the cloudflare and ernie adapters return the
backend payload verbatim. -/
theorem c2_amended (cfg : Cfg) (env : NetEnv) (s : List Char)
    (hcf : provKind (providerOf cfg) ≠ .cloudflare)
    (hern : provKind (providerOf cfg) ≠ .ernie)
    (hres : generate_response cfg env = .str s)
    (hok : errTagged s = false) :
    hasChar '\n' s = false := by
  unfold generate_response at hres
  cases hb : generateResponseBody cfg env with
  | ok v =>
    rw [hb] at hres
    cases v with
    | str s2 =>
      injection hres with hres
      subst hres
      exact body_nl cfg env _ hcf hern hb
    | pynone => cases hres
  | error e =>
    rw [hb] at hres
    injection hres with hres
    rw [← hres, errTagged_errTag e] at hok
    cases hok

/-- Claim C2 amended, witness: a complete openai configuration with a benign
backend returns the text ok, which contains no newline. -/
theorem c2_amended_witness : hasChar '\n' "ok".data = false :=
  c2_amended cfgOpenaiOk envDefault "ok".data (by decide) (by decide) rfl (by decide)

/-- Claim C3 counterexample: the claim says a transport-failure value (an
"Error: "-tagged string) makes the script Orchestrator retry up to the cap of
5 attempts.  False: an "Error: "-tagged response is truthy, survives
format_response, and breaks the loop on the very first attempt, so
generate_script performs exactly one attempt and returns the failure text as
the final script. -/
theorem c3_counterexample :
    generate_script (fun _ => LLMRet.str "Error: boom".data) = ("Error: boom".data, 1) ∧
    errTagged "Error: boom".data = true :=
  ⟨rfl, rfl⟩

/-- Claim C3 as amended: generate_script does not retry on a transport-failure
value: whenever the first attempt produces a truthy response whose formatted
text carries the "Error: " tag (and not the quota marker), the loop accepts it
immediately — one attempt — and returns it (stripped) as the final script,
merely logging it at failure severity. -/
theorem c3_amended (d : Nat → LLMRet) (s : List Char)
    (hd : d 0 = .str s) (hne : s.isEmpty = false)
    (htag : errTagged (format_response s) = true)
    (hq : strIn quotaMarker (format_response s) = false) :
    generate_script d = (pyStrip (format_response s), 1) := by
  have hfne : (format_response s).isEmpty = false := by
    cases hfe : (format_response s).isEmpty
    · rfl
    · exact absurd (List.isEmpty_iff.mp hfe) (errTagged_ne_nil _ htag)
  have h5 : scriptGo d 5 0 [] = (format_response s, 1) :=
    scriptGo_break d 4 0 [] s hd hne hq hfne
  unfold generate_script
  rw [h5]

/-- Claim C3 amended, witness: a dispatcher stub failing with a tagged message
is accepted on the first attempt. -/
theorem c3_amended_witness :
    generate_script (fun _ => LLMRet.str "Error: quota exceeded".data) =
      (pyStrip (format_response "Error: quota exceeded".data), 1) :=
  c3_amended (fun _ => LLMRet.str "Error: quota exceeded".data) _ rfl rfl
    (by decide) (by decide)

/-- Claim C4 counterexample: the claim says that when no attempt yields a
non-empty valid parse and no sentinel appears, generate_terms performs exactly
5 attempts and returns the empty sequence, never a retained non-list value.
False: a first attempt parsing to the JSON string "hello" (not a list, so
validation hits continue and retains it) followed by an unparsable attempt
makes the loop break on the retained value: generate_terms returns the JSON
string "hello" after only 2 attempts. -/
theorem c4_counterexample :
    generate_terms stubLoadsHello stubDHello =
      (.val (.str "hello".data) .strictInvalid, 2) ∧
    isStrList (.str "hello".data) = false :=
  ⟨rfl, rfl⟩

/-- Claim C4 as amended: when additionally every attempt makes no parsing
progress at all — the response is not the sentinel, the strict parse raises,
and salvage either finds no bracket span or fails to re-parse it — then
generate_terms performs exactly 5 attempts and returns the empty sequence. -/
theorem c4_amended (loads : List Char → Except (List Char) PyJson)
    (d : Nat → LLMRet) (h : ∀ k, attemptFails loads (d k)) :
    generate_terms loads d = (.val (.arr []) .init, 5) := by
  unfold generate_terms
  have h5 := termsGo_fails loads d h 5 0
  simpa using h5

/-- Claim C4 amended, witness: the spec scenario — a stub answering the
unparsable text not json at all on every attempt gives the empty sequence
after exactly 5 attempts. -/
theorem c4_amended_witness :
    generate_terms stubLoadsErr stubDNotJson = (.val (.arr []) .init, 5) :=
  c4_amended stubLoadsErr stubDNotJson (fun _ =>
    ⟨rfl, fun _ hv => Except.noConfusion hv, fun _ _ hsp _ => Option.noConfusion hsp⟩)

/-- Claim C5 counterexample: the claim says every non-empty sequence returned
as a final success is a list of strings, including values obtained through the
salvage path.  False: the salvage re-parse is never validated — a response
whose extracted bracket span parses to a list containing the number 1 is
returned as a final success on the first attempt, and it is not a list of
strings. -/
theorem c5_counterexample :
    generate_terms stubLoadsSalvage stubDSalvage =
      (.val (.arr [.str "a".data, .num 1]) .salvaged, 1) ∧
    isStrList (.arr [.str "a".data, .num 1]) = false :=
  ⟨rfl, rfl⟩

/-- Claim C5 as amended: only the strict-parse path validates: every final
success whose value was produced by a strict parse that passed the
list-of-strings validation is a list of strings; salvage results and values
retained from failed validations may have any shape. -/
theorem c5_amended (loads : List Char → Except (List Char) PyJson)
    (d : Nat → LLMRet) (v : PyJson) (n : Nat)
    (h : generate_terms loads d = (.val v .strictValid, n)) : isStrList v = true := by
  unfold generate_terms at h
  exact termsGo_strictValid loads d 5 0 (.arr []) .init
    (fun hcon => Src.noConfusion hcon) v n h

/-- Claim C5 amended, witness: the spec scenario — a stub answering a strict
JSON array of three strings gives a validated list of strings. -/
theorem c5_amended_witness :
    isStrList (.arr [.str "a".data, .str "b".data, .str "c".data]) = true :=
  c5_amended stubLoadsStrict stubDStrict _ 1 rfl

/-- Claim C6: generate_script performs at most 5 attempts, and a dispatcher
stub answering the quota-exhaustion marker on every attempt exhausts all 5
attempts, after which the marker-bearing text is still the returned value. -/
theorem c6_confirmed :
    (∀ d : Nat → LLMRet, (generate_script d).2 ≤ 5) ∧
    generate_script (fun _ => LLMRet.str quotaMarker) = (quotaMarker, 5) ∧
    strIn quotaMarker (generate_script (fun _ => LLMRet.str quotaMarker)).1 = true := by
  refine ⟨fun d => ?_, rfl, rfl⟩
  have h := scriptGo_count d 5 0 []
  unfold generate_script
  simpa using h

/-- Claim C7: for every dispatcher whose outputs carry no newline, the text
generate_script returns contains no asterisk, no hash, and no complete
bracketed or parenthetical span. -/
theorem c7_confirmed (d : Nat → LLMRet) (h : ∀ k, hasNLRet (d k) = false) :
    hasChar '*' (generate_script d).1 = false ∧
    hasChar '#' (generate_script d).1 = false ∧
    hasSpan '[' ']' (generate_script d).1 = false ∧
    hasSpan '(' ')' (generate_script d).1 = false := by
  have hclean := scriptGo_clean d h 5 0 [] cleanScript_nil
  show cleanScript (generate_script d).1
  unfold generate_script
  exact cleanScript_mono (pyStrip_sublist _) hclean

/-- Claim C7, witness: a newline-free response full of markdown is cleaned. -/
theorem c7_witness :
    hasChar '*' (generate_script (fun _ => LLMRet.str "a *[b]* and (c) #d".data)).1 = false ∧
    hasChar '#' (generate_script (fun _ => LLMRet.str "a *[b]* and (c) #d".data)).1 = false ∧
    hasSpan '[' ']' (generate_script (fun _ => LLMRet.str "a *[b]* and (c) #d".data)).1 = false ∧
    hasSpan '(' ')' (generate_script (fun _ => LLMRet.str "a *[b]* and (c) #d".data)).1 = false :=
  c7_confirmed _ (fun _ => rfl)

/-- Claim C8: whenever an attempt of the generate_terms loop receives a
response carrying the "Error: " sentinel, the function returns that raw
response immediately on that attempt — no parsing of it, no further
attempts. -/
theorem c8_confirmed (loads : List Char → Except (List Char) PyJson)
    (d : Nat → LLMRet) (rem i : Nat) (j : PyJson) (src : Src) (s : List Char)
    (hd : d i = .str s) (htag : errTagged s = true) :
    termsGo loads d (rem + 1) i j src = (.raw s, i + 1) :=
  termsGo_sentinel loads d rem i j src s hd htag

/-- Claim C8, witness: a tagged first response is returned raw after one
attempt. -/
theorem c8_witness :
    termsGo stubLoadsErr (fun _ => LLMRet.str "Error: nope".data) (4 + 1) 0
      (.arr []) .init = (.raw "Error: nope".data, 0 + 1) :=
  c8_confirmed stubLoadsErr (fun _ => LLMRet.str "Error: nope".data) 4 0
    (.arr []) .init "Error: nope".data rfl (by decide)

/-- Claim C9: for every provider that passes through the credential
validation block, a missing api key, model name or base url (or, for ernie,
a missing secret key) makes the Dispatcher return the tagged
configuration-failure message, whatever the backend environment behavior is
(the result does not depend on env: no network interaction is consulted). -/
theorem c9_confirmed (cfg : Cfg) (env : NetEnv)
    (hp : providerOf cfg ∈ credProviders) (hm : missingCred cfg = true) :
    generate_response cfg env = .str (errTag (credFailureMsg cfg)) ∧
    strIn " is not set, please set it in the config.toml file.".data
      (credFailureMsg cfg) = true := by
  have hkne : provKind (providerOf cfg) ≠ .g4f ∧ provKind (providerOf cfg) ≠ .pollinations ∧
      provKind (providerOf cfg) ≠ .ollama ∧ provKind (providerOf cfg) ≠ .unknown := by
    simp only [credProviders, List.mem_cons, List.not_mem_nil, or_false] at hp
    rcases hp with h | h | h | h | h | h | h | h | h | h <;> rw [h] <;> decide
  obtain ⟨h1, h2, h3, h4⟩ := hkne
  cases hcr : resolveCreds cfg (providerOf cfg) with
  | error e =>
    obtain ⟨hke, hsec, hemsg⟩ := resolve_error_char cfg _ e hcr
    have hmsg : credFailureMsg cfg = e := by
      unfold credFailureMsg
      rw [if_pos ⟨hke, hsec⟩, hemsg]
    rw [hmsg]
    refine ⟨body_resolve_fail cfg env h1 h2 e hcr, ?_⟩
    rw [hemsg]
    exact strIn_append_right _ _ _ (by decide)
  | ok copt =>
    cases copt with
    | none =>
      unfold missingCred at hm
      rw [hcr] at hm
      cases hm
    | some cr =>
      unfold missingCred at hm
      rw [hcr] at hm
      have hguard : ¬(provKind (providerOf cfg) = ProvKind.ernie ∧
          (!truthy (cget cfg "ernie_secret_key")) = true) := by
        rintro ⟨hke, hsec⟩
        rw [resolve_ok_some_ernie cfg _ cr hke hcr] at hsec
        cases hsec
      have hred : credFailureMsg cfg =
          (if (!truthy cr.api_key) = true then
            providerOf cfg ++ ": api_key is not set, please set it in the config.toml file.".data
          else if (!truthy cr.model_name) = true then
            providerOf cfg ++ ": model_name is not set, please set it in the config.toml file.".data
          else
            providerOf cfg ++ ": base_url is not set, please set it in the config.toml file.".data) := by
        unfold credFailureMsg
        rw [if_neg hguard, hcr]
      have hval : validateCreds (providerOf cfg) cr = .error (credFailureMsg cfg) := by
        rw [hred]
        unfold validateCreds
        by_cases ha : (!truthy cr.api_key) = true
        · rw [if_pos ha, if_pos ha]
        · rw [if_neg ha, if_neg ha]
          by_cases hb : (!truthy cr.model_name) = true
          · rw [if_pos hb, if_pos hb]
          · rw [if_neg hb, if_neg hb]
            by_cases hc : cr.base_url.isEmpty = true
            · rw [if_pos hc]
            · have hm2 : (!truthy cr.api_key || !truthy cr.model_name ||
                  cr.base_url.isEmpty) = true := hm
              rw [Bool.eq_false_iff.mpr ha, Bool.eq_false_iff.mpr hb,
                Bool.eq_false_iff.mpr hc] at hm2
              cases hm2
      refine ⟨body_conf_fail cfg env h1 h2 h3 h4 cr hcr _ hval, ?_⟩
      rw [hred]
      by_cases ha : (!truthy cr.api_key) = true
      · rw [if_pos ha]
        exact strIn_append_right _ _ _ (by decide)
      · rw [if_neg ha]
        by_cases hb : (!truthy cr.model_name) = true
        · rw [if_pos hb]
          exact strIn_append_right _ _ _ (by decide)
        · rw [if_neg hb]
          exact strIn_append_right _ _ _ (by decide)

/-- Claim C9, witness: an openai configuration lacking the api key produces
the tagged configuration-failure message for any environment. -/
theorem c9_witness :
    generate_response cfgOpenaiNoKey envDefault =
      .str (errTag (credFailureMsg cfgOpenaiNoKey)) ∧
    strIn " is not set, please set it in the config.toml file.".data
      (credFailureMsg cfgOpenaiNoKey) = true :=
  c9_confirmed cfgOpenaiNoKey envDefault (by decide) (by decide)

/-- Claim C10 (implicit): the sentinel test of generate_terms is substring
containment, so any response containing "Error: " anywhere is returned raw on
the first such attempt — even when that same response also carries a valid
non-empty JSON array of strings that the strict parse or the salvage parse
would have produced. -/
theorem c10_confirmed (loads : List Char → Except (List Char) PyJson)
    (d : Nat → LLMRet) (s : List Char) (ts : List PyJson)
    (hd : d 0 = .str s) (htag : errTagged s = true)
    (_hparse : loads s = .ok (.arr ts) ∨
      (∃ span, reSearchSpan '[' ']' s = some span ∧ loads span = .ok (.arr ts)))
    (_hts : isStrList (.arr ts) = true) (_hne : ts ≠ []) :
    generate_terms loads d = (.raw s, 1) := by
  have h5 : termsGo loads d 5 0 (.arr []) .init = (.raw s, 1) :=
    termsGo_sentinel loads d 4 0 (.arr []) .init s hd htag
  unfold generate_terms
  rw [h5]

/-- Claim C10, witness: a response carrying both the sentinel substring and a
salvageable array of strings is returned raw after one attempt. -/
theorem c10_witness :
    generate_terms stubLoads10 stubD10 =
      (.raw "Error: quota hit [\"a\", \"b\"]".data, 1) :=
  c10_confirmed stubLoads10 stubD10 "Error: quota hit [\"a\", \"b\"]".data
    [.str "a".data, .str "b".data] rfl (by decide)
    (Or.inr ⟨"[\"a\", \"b\"]".data, by decide, rfl⟩) (by decide) (List.cons_ne_nil _ _)
